import Mathlib

/-!
Shallow embedding of the CFO copilot core (planner.py and tools.py):
intent classification, date extraction, currency normalization, the five
aggregation routines, and the dispatching `process_question`, together with
theorems settling the specification claims about them.

Amounts are modelled as rationals; tables as lists of row structures in
source order; fallible steps as `Except String`.
-/

namespace CFO

/-- Test `matchesAt pat s`: the characters of `pat` occur at the start of `s`. -/
def matchesAt : List Char → List Char → Bool
  | [], _ => true
  | _ :: _, [] => false
  | p :: ps, c :: cs => p == c && matchesAt ps cs

/-- Test `substrAux pat s`: the characters of `pat` occur contiguously somewhere in
`s` (the semantics of Python `pat in s`). -/
def substrAux (pat : List Char) : List Char → Bool
  | [] => pat.isEmpty
  | c :: rest => matchesAt pat (c :: rest) || substrAux pat rest

/-- Python substring test `pat in s` on strings. -/
def containsStr (s pat : String) : Bool :=
  substrAux pat.data s.data

/-- ASCII lowercasing of one character; models Python `str.lower` on the
character range the source vocabulary uses. -/
def charLower (c : Char) : Char :=
  if 'A' ≤ c ∧ c ≤ 'Z' then Char.ofNat (c.toNat + 32) else c

/-- Lowercasing of a string, character by character. -/
def strLower (s : String) : String := ⟨s.data.map charLower⟩

/-- Embedding of `CFOAgent.classify_intent` (planner.py): keyword routing with
first-match-wins priority over the lowercased question. -/
def classify_intent (question : String) : String :=
  let ql := strLower question
  if containsStr ql "revenue" && (containsStr ql "budget" || containsStr ql "vs") then
    "revenue_vs_budget"
  else if containsStr ql "margin" || containsStr ql "gross" then
    "gross_margin"
  else if containsStr ql "opex" || containsStr ql "breakdown" then
    "opex_breakdown"
  else if containsStr ql "cash" || containsStr ql "runway" || containsStr ql "burn" then
    "cash_runway"
  else if containsStr ql "ebitda" then
    "ebitda"
  else
    "unknown"

/-- The `month_mapping` dict of `extract_month_year` (planner.py), in its
insertion order, which is the iteration order of a Python dict. -/
def month_mapping : List (String × Nat) :=
  [("january", 1), ("jan", 1),
   ("february", 2), ("feb", 2),
   ("march", 3), ("mar", 3),
   ("april", 4), ("apr", 4),
   ("may", 5),
   ("june", 6), ("jun", 6),
   ("july", 7), ("jul", 7),
   ("august", 8), ("aug", 8),
   ("september", 9), ("sep", 9),
   ("october", 10), ("oct", 10),
   ("november", 11), ("nov", 11),
   ("december", 12), ("dec", 12)]

/-- Attempt of the regex `20\d{2}` at the start of a character list: matches
literal "20" followed by two digits and returns the four-digit value. -/
def matchYear : List Char → Option Nat
  | '2' :: '0' :: a :: b :: _ =>
    if a.isDigit && b.isDigit then
      some (2000 + 10 * (a.toNat - 48) + (b.toNat - 48))
    else
      none
  | _ => none

/-- Model of `re.search(r'20\d{2}', s)`: the leftmost match of the year pattern. -/
def searchYear : List Char → Option Nat
  | [] => none
  | c :: rest =>
    match matchYear (c :: rest) with
    | some y => some y
    | none => searchYear rest

/-- Embedding of `CFOAgent.extract_month_year` (planner.py): the first
`month_mapping` entry (in table order) occurring in the lowercased question,
and the first `20\d{2}` match in the original question, defaulting to 2025. -/
def extract_month_year (question : String) : Option Nat × Nat :=
  let ql := strLower question
  let monthNum := (month_mapping.find? fun e => containsStr ql e.1).map (·.2)
  let year := (searchYear question.data).getD 2025
  (monthNum, year)

example : classify_intent "What was June revenue vs budget?" = "revenue_vs_budget" := by decide
example : classify_intent "Show me gross margin trends" = "gross_margin" := by decide
example : classify_intent "Break down opex by category" = "opex_breakdown" := by decide
example : classify_intent "What is our cash runway?" = "cash_runway" := by decide
example : classify_intent "Show me the EBITDA" = "ebitda" := by decide
example : classify_intent "How is the weather today?" = "unknown" := by decide
example : extract_month_year "June 2025 revenue" = (some 6, 2025) := by decide
example : extract_month_year "What was April performance?" = (some 4, 2025) := by decide
example : extract_month_year "Show me December 2024" = (some 12, 2024) := by decide
example : extract_month_year "No date info here" = (none, 2025) := by decide
example : extract_month_year "January numbers for 2023" = (some 1, 2023) := by decide

/-! ### Claims about the intent classifier and the date extractor -/

lemma find?_append_of_forall_false {α : Type} (p : α → Bool) (l₁ l₂ : List α)
    (h : ∀ e ∈ l₁, p e = false) : (l₁ ++ l₂).find? p = l₂.find? p := by
  induction l₁ with
  | nil => simp
  | cons a t ih =>
    have ha := h a (by simp)
    rw [List.cons_append, List.find?_cons_of_neg _ (by simp [ha])]
    exact ih fun e he => h e (by simp [he])

/-- C3: `classify_intent` follows the fixed first-match-wins priority: revenue
with budget-or-vs, then margin-or-gross, then opex-or-breakdown, then
cash-or-runway-or-burn, then ebitda, else unknown; in particular any question
containing both "budget" and "revenue" classifies as revenue-vs-budget. -/
theorem classify_intent_priority (q : String) :
    (containsStr (strLower q) "revenue" = true ∧
        (containsStr (strLower q) "budget" = true ∨ containsStr (strLower q) "vs" = true) →
      classify_intent q = "revenue_vs_budget") ∧
    (¬(containsStr (strLower q) "revenue" = true ∧
        (containsStr (strLower q) "budget" = true ∨ containsStr (strLower q) "vs" = true)) →
      (containsStr (strLower q) "margin" = true ∨ containsStr (strLower q) "gross" = true) →
      classify_intent q = "gross_margin") ∧
    (¬(containsStr (strLower q) "revenue" = true ∧
        (containsStr (strLower q) "budget" = true ∨ containsStr (strLower q) "vs" = true)) →
      ¬(containsStr (strLower q) "margin" = true ∨ containsStr (strLower q) "gross" = true) →
      (containsStr (strLower q) "opex" = true ∨ containsStr (strLower q) "breakdown" = true) →
      classify_intent q = "opex_breakdown") ∧
    (¬(containsStr (strLower q) "revenue" = true ∧
        (containsStr (strLower q) "budget" = true ∨ containsStr (strLower q) "vs" = true)) →
      ¬(containsStr (strLower q) "margin" = true ∨ containsStr (strLower q) "gross" = true) →
      ¬(containsStr (strLower q) "opex" = true ∨ containsStr (strLower q) "breakdown" = true) →
      (containsStr (strLower q) "cash" = true ∨ containsStr (strLower q) "runway" = true ∨
        containsStr (strLower q) "burn" = true) →
      classify_intent q = "cash_runway") ∧
    (¬(containsStr (strLower q) "revenue" = true ∧
        (containsStr (strLower q) "budget" = true ∨ containsStr (strLower q) "vs" = true)) →
      ¬(containsStr (strLower q) "margin" = true ∨ containsStr (strLower q) "gross" = true) →
      ¬(containsStr (strLower q) "opex" = true ∨ containsStr (strLower q) "breakdown" = true) →
      ¬(containsStr (strLower q) "cash" = true ∨ containsStr (strLower q) "runway" = true ∨
        containsStr (strLower q) "burn" = true) →
      (containsStr (strLower q) "ebitda" = true → classify_intent q = "ebitda") ∧
        (containsStr (strLower q) "ebitda" = false → classify_intent q = "unknown")) ∧
    (containsStr (strLower q) "budget" = true ∧ containsStr (strLower q) "revenue" = true →
      classify_intent q = "revenue_vs_budget") := by
  refine ⟨?_, ?_, ?_, ?_, ?_, ?_⟩
  · rintro ⟨h1, h2 | h2⟩ <;> simp [classify_intent, h1, h2]
  · intro hn1 hc
    simp only [not_and_or, not_or, Bool.not_eq_true] at hn1
    rcases hn1 with hn1 | ⟨hn1, hn1'⟩ <;> rcases hc with hc | hc <;>
      simp [classify_intent, *]
  · intro hn1 hn2 hc
    simp only [not_and_or, not_or, Bool.not_eq_true] at hn1 hn2
    obtain ⟨hm, hg⟩ := hn2
    rcases hn1 with hn1 | ⟨hn1, hn1'⟩ <;> rcases hc with hc | hc <;>
      simp [classify_intent, *]
  · intro hn1 hn2 hn3 hc
    simp only [not_and_or, not_or, Bool.not_eq_true] at hn1 hn2 hn3
    obtain ⟨hm, hg⟩ := hn2
    obtain ⟨ho, hb⟩ := hn3
    rcases hn1 with hn1 | ⟨hn1, hn1'⟩ <;> rcases hc with hc | hc | hc <;>
      simp [classify_intent, *]
  · intro hn1 hn2 hn3 hn4
    simp only [not_and_or, not_or, Bool.not_eq_true] at hn1 hn2 hn3 hn4
    obtain ⟨hm, hg⟩ := hn2
    obtain ⟨ho, hb⟩ := hn3
    obtain ⟨hc, hr, hu⟩ := hn4
    constructor <;> intro he <;>
      rcases hn1 with hn1 | ⟨hn1, hn1'⟩ <;> simp [classify_intent, *]
  · rintro ⟨hb, hr⟩
    simp [classify_intent, hb, hr]

/-- Witness for C3 at a concrete question containing "budget" and "revenue"
together with tokens of later rules. -/
theorem classify_intent_priority_witness :
    (containsStr (strLower "cash burn margin of revenue under budget") "budget" = true ∧
      containsStr (strLower "cash burn margin of revenue under budget") "revenue" = true) ∧
    classify_intent "cash burn margin of revenue under budget" = "revenue_vs_budget" :=
  ⟨by decide,
    (classify_intent_priority "cash burn margin of revenue under budget").2.2.2.2.2 (by decide)⟩

/-- C4: the month returned by `extract_month_year` is decided by the lookup
table's enumeration order, not textual position: it is the value of the first
`month_mapping` entry whose name occurs in the lowercased question, and `none`
when no entry occurs. -/
theorem extract_month_table_order (q : String) :
    ((∀ e ∈ month_mapping, containsStr (strLower q) e.1 = false) →
      (extract_month_year q).1 = none) ∧
    ∀ pre nm k post, month_mapping = pre ++ (nm, k) :: post →
      (∀ e ∈ pre, containsStr (strLower q) e.1 = false) →
      containsStr (strLower q) nm = true →
      (extract_month_year q).1 = some k := by
  constructor
  · intro h
    simp only [extract_month_year]
    rw [List.find?_eq_none.mpr fun e he => by simp [h e he]]
    rfl
  · intro pre nm k post heq hpre hnm
    simp only [extract_month_year]
    rw [heq, find?_append_of_forall_false _ _ _ hpre, List.find?_cons_of_pos _ (by simpa using hnm)]
    rfl

/-- Witness for C4: in "march or may?" both "march" and "may" occur, "march" is
the earlier table entry, and the first four table entries do not occur. -/
theorem extract_month_table_order_witness :
    (extract_month_year "march or may?").1 = some 3 :=
  (extract_month_table_order "march or may?").2
    [("january", 1), ("jan", 1), ("february", 2), ("feb", 2)] "march" 3
    [("mar", 3), ("april", 4), ("apr", 4), ("may", 5),
      ("june", 6), ("jun", 6), ("july", 7), ("jul", 7), ("august", 8), ("aug", 8),
      ("september", 9), ("sep", 9), ("october", 10), ("oct", 10),
      ("november", 11), ("nov", 11), ("december", 12), ("dec", 12)]
    (by decide) (by decide) (by decide)

lemma searchYear_eq_none (cs : List Char) (h : ∀ i, matchYear (cs.drop i) = none) :
    searchYear cs = none := by
  induction cs with
  | nil => rfl
  | cons c rest ih =>
    have h0 := h 0
    simp only [List.drop_zero] at h0
    rw [searchYear, h0]
    exact ih fun i => h (i + 1)

lemma searchYear_eq_some_of_first (cs : List Char) :
    ∀ i y, (∀ j, j < i → matchYear (cs.drop j) = none) →
      matchYear (cs.drop i) = some y → searchYear cs = some y := by
  induction cs with
  | nil => intro i y _ hi; simp [matchYear] at hi
  | cons c rest ih =>
    intro i y hj hi
    cases i with
    | zero =>
      simp only [List.drop_zero] at hi
      rw [searchYear, hi]
    | succ i =>
      have h0 := hj 0 (Nat.succ_pos i)
      simp only [List.drop_zero] at h0
      rw [searchYear, h0]
      exact ih i y (fun j hlt => hj (j + 1) (Nat.succ_lt_succ hlt)) hi

/-- C8: the year returned by `extract_month_year` is the value of the first
occurrence of the pattern `20\d{2}` in the question, and the fixed default
2025 when the pattern occurs nowhere. -/
theorem extract_year_first_token (q : String) :
    ((∀ i, matchYear (q.data.drop i) = none) → (extract_month_year q).2 = 2025) ∧
    ∀ i y, (∀ j, j < i → matchYear (q.data.drop j) = none) →
      matchYear (q.data.drop i) = some y → (extract_month_year q).2 = y := by
  constructor
  · intro h
    simp only [extract_month_year]
    rw [searchYear_eq_none q.data h]
    rfl
  · intro i y hj hi
    simp only [extract_month_year]
    rw [searchYear_eq_some_of_first q.data i y hj hi]
    rfl

/-- Witness for C8: in "plan 2024 then 2026" the first year token is 2024. -/
theorem extract_year_first_token_witness :
    (extract_month_year "plan 2024 then 2026").2 = 2024 :=
  (extract_year_first_token "plan 2024 then 2026").2 5 2024 (by decide) (by decide)

/-! ### Data model of tools.py

Periods are `pd.Timestamp` values of the parsed `month` column, modelled as
year/month/day triples ordered lexicographically. Amounts are rationals.
Tables are lists of rows in sheet order. -/

structure Date where
  year : Nat
  month : Nat
  day : Nat
deriving DecidableEq, Repr

/-- Timestamp order (lexicographic on year, month, day), `≤` flavour. -/
def dateLe (x y : Date) : Bool :=
  decide (x.year < y.year) ||
    (decide (x.year = y.year) && (decide (x.month < y.month) ||
      (decide (x.month = y.month) && decide (x.day ≤ y.day))))

/-- Timestamp order, strict flavour. -/
def dateLt (x y : Date) : Bool :=
  decide (x.year < y.year) ||
    (decide (x.year = y.year) && (decide (x.month < y.month) ||
      (decide (x.month = y.month) && decide (x.day < y.day))))

lemma dateLe_of_lt {x y : Date} (h : dateLt x y = true) : dateLe x y = true := by
  obtain ⟨a, b, c⟩ := x
  obtain ⟨d, e, f⟩ := y
  simp only [dateLt, dateLe, Bool.or_eq_true, Bool.and_eq_true, decide_eq_true_eq] at h ⊢
  omega

lemma dateLe_eq_false_of_lt {x y : Date} (h : dateLt x y = true) : dateLe y x = false := by
  obtain ⟨a, b, c⟩ := x
  obtain ⟨d, e, f⟩ := y
  simp only [dateLt, dateLe, Bool.or_eq_false_iff, Bool.and_eq_false_iff,
    Bool.or_eq_true, Bool.and_eq_true, decide_eq_true_eq, decide_eq_false_iff_not] at h ⊢
  omega

/-- A row of the Actuals or Budget sheet. -/
structure LedgerRow where
  month : Date
  account_category : String
  currency : String
  amount : ℚ
deriving DecidableEq, Repr

/-- A row of the FX sheet. -/
structure FxRow where
  month : Date
  currency : String
  rate_to_usd : ℚ
deriving DecidableEq, Repr

/-- A row of the Cash sheet. -/
structure CashRow where
  month : Date
  cash_usd : ℚ
deriving DecidableEq, Repr

/-- A ledger row after `_convert_to_usd`: the merged FX rate and the derived
USD amount. -/
structure UsdRow where
  row : LedgerRow
  rate_to_usd : ℚ
  amount_usd : ℚ
deriving DecidableEq, Repr

/-- The merge key of `_convert_to_usd`: exact (month, currency) match. -/
def fxMatches (r : LedgerRow) (f : FxRow) : Bool :=
  f.month == r.month && f.currency == r.currency

/-- Embedding of `FinanceDataTools._convert_to_usd` (tools.py): a left merge of
the rows against the FX table on (month, currency), `fillna(1.0)` on the rate,
then `amount_usd = amount * rate_to_usd`. An unmatched row keeps rate 1.0; a
row with several FX matches is duplicated, as a pandas merge duplicates it. -/
def convert_to_usd (fx : List FxRow) (rows : List LedgerRow) : List UsdRow :=
  rows.flatMap fun r =>
    let ms := fx.filter (fxMatches r)
    if ms.isEmpty then [⟨r, 1, r.amount * 1⟩]
    else ms.map fun f => ⟨r, f.rate_to_usd, r.amount * f.rate_to_usd⟩

/-- Sum `df['amount_usd'].sum()` after `_convert_to_usd`. -/
def sumUsd (fx : List FxRow) (rows : List LedgerRow) : ℚ :=
  ((convert_to_usd fx rows).map fun u => u.amount_usd).sum

/-- Python truthiness of an optional integer argument: `None` and `0` are
falsy, any other value is truthy. -/
def truthy : Option Nat → Bool
  | none => false
  | some n => n != 0

/-- Two-digit zero padding, the `%m` field of `strftime` and `{m:02d}`. -/
def pad2 (n : Nat) : String :=
  if n < 10 then "0" ++ Nat.repr n else Nat.repr n

/-- Four-digit zero padding, the `%Y` field of `strftime`. -/
def pad4 (n : Nat) : String :=
  if n < 10 then "000" ++ Nat.repr n
  else if n < 100 then "00" ++ Nat.repr n
  else if n < 1000 then "0" ++ Nat.repr n
  else Nat.repr n

/-- Format `month.strftime('%Y-%m')` on a parsed month value. -/
def ymStr (d : Date) : String := pad4 d.year ++ "-" ++ pad2 d.month

/-- The `target_date` string `f"{year}-{month:02d}"`. -/
def targetDate (y m : Nat) : String := Nat.repr y ++ "-" ++ pad2 m

/-- The month/year filter shared by `get_revenue_vs_budget` and
`get_opex_breakdown` (tools.py): `if month and year:` compares the formatted
period against `target_date`; `elif year:` compares the year field; otherwise
no filter is applied. -/
def filterPeriod (month year : Option Nat) (rows : List LedgerRow) : List LedgerRow :=
  if truthy month && truthy year then
    rows.filter fun r => ymStr r.month == targetDate (year.getD 0) (month.getD 0)
  else if truthy year then
    rows.filter fun r => r.month.year == year.getD 0
  else
    rows

/-- Result record of `get_revenue_vs_budget`. -/
structure RevenueVsBudgetResult where
  actual : ℚ
  budget : ℚ
  variance : ℚ
  variance_pct : ℚ
deriving DecidableEq, Repr

/-- Embedding of `FinanceDataTools.get_revenue_vs_budget` (tools.py). -/
def get_revenue_vs_budget (actuals budget : List LedgerRow) (fx : List FxRow)
    (month year : Option Nat) : RevenueVsBudgetResult :=
  let revenue_actual := actuals.filter fun r => r.account_category == "Revenue"
  let revenue_budget := budget.filter fun r => r.account_category == "Revenue"
  let revenue_actual := filterPeriod month year revenue_actual
  let revenue_budget := filterPeriod month year revenue_budget
  let actual_total := sumUsd fx revenue_actual
  let budget_total := sumUsd fx revenue_budget
  let variance := actual_total - budget_total
  let variance_pct := if budget_total ≠ 0 then variance / budget_total * 100 else 0
  ⟨actual_total, budget_total, variance, variance_pct⟩

/-- Python `s.startswith(pat)`. -/
def startsWithStr (s pat : String) : Bool := matchesAt pat.data s.data

/-- Lexicographic order on strings, used to model the sorted key order of a
pandas `groupby`. -/
def charListLe : List Char → List Char → Bool
  | [], _ => true
  | _ :: _, [] => false
  | a :: as, b :: bs => decide (a < b) || (a == b && charListLe as bs)

def strLeB (s t : String) : Bool := charListLe s.data t.data

/-- Generic stable insertion into a sorted list, by a boolean `≤` test. -/
def insertLe {α : Type} (le : α → α → Bool) (a : α) : List α → List α
  | [] => [a]
  | b :: t => if le a b then a :: b :: t else b :: insertLe le a t

/-- Generic stable insertion sort, by a boolean `≤` test. -/
def sortLe {α : Type} (le : α → α → Bool) : List α → List α
  | [] => []
  | a :: t => insertLe le a (sortLe le t)

/-- Model of `groupby('account_category')['amount_usd'].sum().to_dict()`: one entry per
distinct category, keys in sorted order (the pandas groupby default), each
mapped to the sum of `amount_usd` over its rows. -/
def groupSum (usd : List UsdRow) : List (String × ℚ) :=
  let cats := (usd.map fun u => u.row.account_category).dedup
  (sortLe strLeB cats).map fun c =>
    (c, ((usd.filter fun u => u.row.account_category == c).map fun u => u.amount_usd).sum)

/-- Embedding of `FinanceDataTools.get_opex_breakdown` (tools.py). -/
def get_opex_breakdown (actuals : List LedgerRow) (fx : List FxRow)
    (month year : Option Nat) : List (String × ℚ) :=
  let opex_data := actuals.filter fun r => startsWithStr r.account_category "Opex:"
  let opex_data := filterPeriod month year opex_data
  groupSum (convert_to_usd fx opex_data)

/-! ### Claims about currency normalization and the period filter -/

lemma fxMatches_key {r : LedgerRow} {f : FxRow} (h : fxMatches r f = true) :
    f.month = r.month ∧ f.currency = r.currency := by
  simpa [fxMatches] using h

lemma filter_eq_find?_toList {α : Type} (p : α → Bool) (l : List α)
    (h : List.Pairwise (fun a b => ¬(p a = true ∧ p b = true)) l) :
    l.filter p = (l.find? p).toList := by
  induction l with
  | nil => rfl
  | cons a t ih =>
    rw [List.pairwise_cons] at h
    cases hp : p a with
    | true =>
      rw [List.filter_cons_of_pos hp, List.find?_cons_of_pos _ hp]
      have ht : t.filter p = [] :=
        List.filter_eq_nil_iff.mpr fun b hb hpb => h.1 b hb ⟨hp, hpb⟩
      simp [ht, Option.toList]
    | false =>
      rw [List.filter_cons_of_neg (by simp [hp]), List.find?_cons_of_neg _ (by simp [hp])]
      exact ih h.2

/-- C9: when the FX table has at most one rate per (month, currency) pair,
`_convert_to_usd` turns each input row into exactly one output row whose
`amount_usd` is `amount * rate_to_usd`, the rate being the matching FX entry
when one exists and 1.0 when none matches; and a found entry matches the
row's month and currency exactly. -/
theorem convert_to_usd_rate (rows : List LedgerRow) (fx : List FxRow)
    (huniq : List.Pairwise
      (fun f g => (f.month, f.currency) ≠ (g.month, g.currency)) fx) :
    convert_to_usd fx rows = rows.map (fun r =>
      match fx.find? (fxMatches r) with
      | some f => ⟨r, f.rate_to_usd, r.amount * f.rate_to_usd⟩
      | none => ⟨r, 1, r.amount * 1⟩) ∧
    ∀ r f, fx.find? (fxMatches r) = some f →
      f.month = r.month ∧ f.currency = r.currency := by
  constructor
  · induction rows with
    | nil => rfl
    | cons r t ih =>
      have hfil : fx.filter (fxMatches r) = (fx.find? (fxMatches r)).toList := by
        refine filter_eq_find?_toList _ _ (huniq.imp ?_)
        intro f g hne ⟨hf, hg⟩
        obtain ⟨hf1, hf2⟩ := fxMatches_key hf
        obtain ⟨hg1, hg2⟩ := fxMatches_key hg
        exact hne (by rw [hf1, hf2, hg1, hg2])
      rw [convert_to_usd, List.flatMap_cons, ← convert_to_usd, ih, List.map_cons]
      cases hf : fx.find? (fxMatches r) with
      | none => simp [hfil, hf]
      | some f => simp [hfil, hf]
  · intro r f h
    exact fxMatches_key (List.find?_some h)

/-- Concrete FX table for the C9 witness: one EUR rate in 2025-06. -/
def fxSample : List FxRow :=
  [⟨⟨2025, 6, 1⟩, "EUR", 11/10⟩, ⟨⟨2025, 7, 1⟩, "EUR", 12/10⟩]

/-- Concrete ledger rows for the C9 witness: one row with a matching FX rate,
one row (GBP) with no matching rate. -/
def ledgerSample : List LedgerRow :=
  [⟨⟨2025, 6, 1⟩, "Revenue", "EUR", 200⟩, ⟨⟨2025, 6, 1⟩, "Revenue", "GBP", 50⟩]

/-- Witness for C9: the matched row converts at rate 11/10, the unmatched row
at rate 1. -/
theorem convert_to_usd_rate_witness :
    convert_to_usd fxSample ledgerSample =
      [⟨⟨⟨2025, 6, 1⟩, "Revenue", "EUR", 200⟩, 11/10, 200 * (11/10)⟩,
       ⟨⟨⟨2025, 6, 1⟩, "Revenue", "GBP", 50⟩, 1, 50 * 1⟩] := by
  rw [(convert_to_usd_rate ledgerSample fxSample
    (by simp [fxSample, List.pairwise_cons, Prod.ext_iff])).1]
  rfl

/-- C5: `get_revenue_vs_budget` returns `variance_pct = 0` when the budget sum
is exactly 0 (no division error), and `(actual - budget) / budget * 100`
when the budget sum is nonzero. -/
theorem revenue_vs_budget_variance_pct (actuals budget : List LedgerRow)
    (fx : List FxRow) (month year : Option Nat) :
    ((get_revenue_vs_budget actuals budget fx month year).budget = 0 →
      (get_revenue_vs_budget actuals budget fx month year).variance_pct = 0) ∧
    ((get_revenue_vs_budget actuals budget fx month year).budget ≠ 0 →
      (get_revenue_vs_budget actuals budget fx month year).variance_pct =
        ((get_revenue_vs_budget actuals budget fx month year).actual -
            (get_revenue_vs_budget actuals budget fx month year).budget) /
          (get_revenue_vs_budget actuals budget fx month year).budget * 100) := by
  simp only [get_revenue_vs_budget]
  constructor
  · intro h
    simp only [h]
    simp
  · intro h
    simp only [ne_eq, h, not_false_eq_true, if_true]

/-- Witness for C5, zero-budget side: an empty budget table sums to 0 and the
variance percentage is 0 rather than a division error. -/
theorem revenue_vs_budget_variance_pct_witness :
    (get_revenue_vs_budget ledgerSample [] fxSample none none).variance_pct = 0 :=
  (revenue_vs_budget_variance_pct ledgerSample [] fxSample none none).1 rfl

/-- C10: for any month 1..12 with the year absent, `get_revenue_vs_budget` and
`get_opex_breakdown` apply no period filter at all (the month filter takes
effect only when both month and year are supplied), while a (nonzero) year
alone filters to the rows of that whole year. -/
theorem month_without_year_applies_no_filter (m : Nat) (_h1 : 1 ≤ m) (_h2 : m ≤ 12)
    (actuals budget : List LedgerRow) (fx : List FxRow) (y : Nat) (hy : y ≠ 0) :
    get_revenue_vs_budget actuals budget fx (some m) none =
      get_revenue_vs_budget actuals budget fx none none ∧
    get_opex_breakdown actuals fx (some m) none = get_opex_breakdown actuals fx none none ∧
    filterPeriod (some m) none actuals = actuals ∧
    filterPeriod none (some y) actuals =
      actuals.filter (fun r => r.month.year == y) := by
  have hfp : ∀ rows : List LedgerRow, filterPeriod (some m) none rows = rows := by
    intro rows
    simp [filterPeriod, truthy]
  have hfn : ∀ rows : List LedgerRow, filterPeriod none none rows = rows := by
    intro rows
    simp [filterPeriod, truthy]
  refine ⟨?_, ?_, hfp actuals, ?_⟩
  · simp only [get_revenue_vs_budget, hfp, hfn]
  · simp only [get_opex_breakdown, hfp, hfn]
  · simp [filterPeriod, truthy, hy]

/-- Witness for C10 at month 6, year 2025, on the sample tables. -/
theorem month_without_year_applies_no_filter_witness :
    get_revenue_vs_budget ledgerSample [] fxSample (some 6) none =
      get_revenue_vs_budget ledgerSample [] fxSample none none ∧
    get_opex_breakdown ledgerSample fxSample (some 6) none =
      get_opex_breakdown ledgerSample fxSample none none ∧
    filterPeriod (some 6) none ledgerSample = ledgerSample ∧
    filterPeriod none (some 2025) ledgerSample =
      ledgerSample.filter (fun r => r.month.year == 2025) :=
  month_without_year_applies_no_filter 6 (by decide) (by decide)
    ledgerSample [] fxSample 2025 (by decide)

/-! ### Gross margin trend and cash runway -/

/-- pandas `nlargest(n)` by a key order `le`, as used on columns with the
rows' order among tied keys irrelevant to the claims (the cash and period
tables carry distinct keys): sort ascending, reverse, take `n`. -/
def nlargestLe {α : Type} (le : α → α → Bool) (n : Nat) (l : List α) : List α :=
  ((sortLe le l).reverse).take n

/-- Result record of `calculate_gross_margin`. -/
structure GrossMarginResult where
  margins : List ℚ
  months : List String
  avg_margin : ℚ
deriving DecidableEq, Repr

/-- Embedding of `FinanceDataTools.calculate_gross_margin` (tools.py):
`nlargest(months)` over the month column of Actuals — over the rows' month
values, duplicates included — sorted ascending, then one margin and one
label per selected value, and `np.mean` of the margins. -/
def calculate_gross_margin (actuals : List LedgerRow) (fx : List FxRow)
    (months : Nat) : GrossMarginResult :=
  let latest_months := sortLe dateLe (nlargestLe dateLe months (actuals.map fun r => r.month))
  let margins := latest_months.map fun m =>
    let month_data := actuals.filter fun r => r.month == m
    let revenue := month_data.filter fun r => r.account_category == "Revenue"
    let cogs := month_data.filter fun r => r.account_category == "COGS"
    let revenue_total := sumUsd fx revenue
    let cogs_total := sumUsd fx cogs
    (if revenue_total ≠ 0 then (revenue_total - cogs_total) / revenue_total else 0) * 100
  let month_labels := latest_months.map ymStr
  let avg_margin := if margins ≠ [] then margins.sum / (margins.length : ℚ) else 0
  ⟨margins, month_labels, avg_margin⟩

/-- The runway value: a finite number of months or the `float('inf')`
sentinel. -/
inductive Runway
  | fin : ℚ → Runway
  | inf : Runway
deriving DecidableEq, Repr

/-- Result record of `get_cash_runway`. -/
structure CashRunwayResult where
  cash_balance : ℚ
  monthly_burn : ℚ
  runway_months : Runway
deriving DecidableEq, Repr

/-- Row order of `nlargest(4, 'month')` and `sort_values('month')`. -/
def cashLe (r s : CashRow) : Bool := dateLe r.month s.month

/-- Embedding of `FinanceDataTools.get_cash_runway` (tools.py): the 4 rows
with the largest month, sorted ascending; fewer than 4 rows give the zero
result; otherwise burn is the (oldest minus newest) cash over 3, and runway
is balance over burn when burn is positive, else infinite. -/
def get_cash_runway (cash : List CashRow) : CashRunwayResult :=
  let latest := sortLe cashLe (nlargestLe cashLe 4 cash)
  if latest.length < 4 then ⟨0, 0, .fin 0⟩
  else
    match latest with
    | [] => ⟨0, 0, .fin 0⟩
    | r0 :: rest =>
      let rN := (r0 :: rest).getLast (List.cons_ne_nil r0 rest)
      let monthly_burn := (r0.cash_usd - rN.cash_usd) / 3
      let current_cash := rN.cash_usd
      ⟨current_cash, monthly_burn,
        if 0 < monthly_burn then .fin (current_cash / monthly_burn) else .inf⟩

/-! ### Sorting lemmas for the nlargest pipelines -/

lemma length_insertLe {α : Type} (le : α → α → Bool) (a : α) (l : List α) :
    (insertLe le a l).length = l.length + 1 := by
  induction l with
  | nil => rfl
  | cons b t ih => cases h : le a b <;> simp [insertLe, h, ih]

lemma length_sortLe {α : Type} (le : α → α → Bool) (l : List α) :
    (sortLe le l).length = l.length := by
  induction l with
  | nil => rfl
  | cons a t ih => rw [sortLe, length_insertLe, ih, List.length_cons]

lemma sortLe_eq_self {α : Type} (le : α → α → Bool) (l : List α)
    (h : l.Pairwise fun a b => le a b = true) : sortLe le l = l := by
  induction l with
  | nil => rfl
  | cons a t ih =>
    rw [List.pairwise_cons] at h
    rw [sortLe, ih h.2]
    cases t with
    | nil => rfl
    | cons b t' => simp [insertLe, h.1 b (by simp)]

lemma insertLe_of_forall_false {α : Type} (le : α → α → Bool) (a : α) (l : List α)
    (h : ∀ b ∈ l, le a b = false) : insertLe le a l = l ++ [a] := by
  induction l with
  | nil => rfl
  | cons b t ih =>
    rw [insertLe, if_neg (by simp [h b (by simp)])]
    rw [List.cons_append, ih fun c hc => h c (by simp [hc])]

lemma sortLe_of_pairwise_false {α : Type} (le : α → α → Bool) (l : List α)
    (h : l.Pairwise fun a b => le a b = false) : sortLe le l = l.reverse := by
  induction l with
  | nil => rfl
  | cons a t ih =>
    rw [List.pairwise_cons] at h
    rw [sortLe, ih h.2,
      insertLe_of_forall_false _ _ _ fun b hb => h.1 b (List.mem_reverse.mp hb),
      List.reverse_cons]

lemma insertLe_perm {α : Type} (le : α → α → Bool) (a : α) (l : List α) :
    (insertLe le a l).Perm (a :: l) := by
  induction l with
  | nil => exact List.Perm.refl _
  | cons b t ih =>
    rw [insertLe]
    split
    · exact List.Perm.refl _
    · exact (ih.cons b).trans (List.Perm.swap a b t)

lemma sortLe_perm {α : Type} (le : α → α → Bool) (l : List α) :
    (sortLe le l).Perm l := by
  induction l with
  | nil => exact List.Perm.refl _
  | cons a t ih => exact (insertLe_perm le a (sortLe le t)).trans (ih.cons a)

lemma pairwise_insertLe {α : Type} (le : α → α → Bool)
    (htrans : ∀ a b c, le a b = true → le b c = true → le a c = true)
    (htot : ∀ a b, le a b = true ∨ le b a = true) (a : α) (l : List α)
    (h : l.Pairwise fun x y => le x y = true) :
    (insertLe le a l).Pairwise fun x y => le x y = true := by
  induction l with
  | nil => simp [insertLe]
  | cons b t ih =>
    rw [List.pairwise_cons] at h
    rw [insertLe]
    split
    case isTrue hab =>
      rw [List.pairwise_cons]
      refine ⟨?_, List.pairwise_cons.mpr h⟩
      intro x hx
      rcases List.mem_cons.mp hx with hx | hx
      · exact hx ▸ hab
      · exact htrans a b x hab (h.1 x hx)
    case isFalse hab =>
      rw [List.pairwise_cons]
      refine ⟨?_, ih h.2⟩
      intro x hx
      rcases List.mem_cons.mp ((insertLe_perm le a t).mem_iff.mp hx) with hx | hx
      · rw [hx]
        rcases htot a b with hh | hh
        · exact absurd hh hab
        · exact hh
      · exact h.1 x hx

lemma pairwise_sortLe {α : Type} (le : α → α → Bool)
    (htrans : ∀ a b c, le a b = true → le b c = true → le a c = true)
    (htot : ∀ a b, le a b = true ∨ le b a = true) (l : List α) :
    (sortLe le l).Pairwise fun x y => le x y = true := by
  induction l with
  | nil => exact List.Pairwise.nil
  | cons a t ih => exact pairwise_insertLe le htrans htot a (sortLe le t) ih

lemma sorted_perm_unique {α : Type} (le : α → α → Bool) :
    ∀ l₁ l₂ : List α, l₁.Perm l₂ →
      l₁.Pairwise (fun x y => le x y = true) →
      l₂.Pairwise (fun x y => le x y = true) →
      (∀ x ∈ l₁, ∀ y ∈ l₁, le x y = true → le y x = true → x = y) →
      l₁ = l₂ := by
  intro l₁
  induction l₁ with
  | nil => intro l₂ hp _ _ _; exact (hp.symm.eq_nil).symm
  | cons a t₁ ih =>
    intro l₂ hp h₁ h₂ hanti
    cases l₂ with
    | nil => exact absurd hp.eq_nil (by simp)
    | cons b t₂ =>
      rw [List.pairwise_cons] at h₁ h₂
      have hab : a = b := by
        by_contra hne
        have hbmem : b ∈ a :: t₁ := hp.symm.subset (by simp)
        have hamem : a ∈ b :: t₂ := hp.subset (by simp)
        have hb₁ : b ∈ t₁ := by
          rcases List.mem_cons.mp hbmem with h | h
          · exact absurd h.symm hne
          · exact h
        have ha₂ : a ∈ t₂ := by
          rcases List.mem_cons.mp hamem with h | h
          · exact absurd h hne
          · exact h
        exact hne (hanti a (by simp) b (by simp [hb₁]) (h₁.1 b hb₁) (h₂.1 a ha₂))
      subst hab
      have ht : t₁ = t₂ :=
        ih t₂ hp.cons_inv h₁.2 h₂.2
          fun x hx y hy => hanti x (by simp [hx]) y (by simp [hy])
      rw [ht]

/-- C7: with fewer than 4 cash rows, `get_cash_runway` returns exactly the
zero result — balance 0, burn 0, runway 0 — and not the infinite sentinel. -/
theorem cash_runway_insufficient_periods (cash : List CashRow) (h : cash.length < 4) :
    get_cash_runway cash = ⟨0, 0, Runway.fin 0⟩ ∧ Runway.fin 0 ≠ Runway.inf := by
  constructor
  · have hlen : (sortLe cashLe (nlargestLe cashLe 4 cash)).length < 4 := by
      rw [length_sortLe, nlargestLe, List.length_take, List.length_reverse, length_sortLe]
      omega
    simp only [get_cash_runway]
    rw [if_pos hlen]
  · intro hc
    exact Runway.noConfusion hc

/-- Witness for C7 on a three-row cash table. -/
theorem cash_runway_insufficient_periods_witness :
    get_cash_runway
        [⟨⟨2025, 1, 1⟩, 90⟩, ⟨⟨2025, 2, 1⟩, 80⟩, ⟨⟨2025, 3, 1⟩, 70⟩] =
      ⟨0, 0, Runway.fin 0⟩ ∧ Runway.fin 0 ≠ Runway.inf :=
  cash_runway_insufficient_periods
    [⟨⟨2025, 1, 1⟩, 90⟩, ⟨⟨2025, 2, 1⟩, 80⟩, ⟨⟨2025, 3, 1⟩, 70⟩] (by decide)

lemma dateLe_trans {x y z : Date} (h1 : dateLe x y = true) (h2 : dateLe y z = true) :
    dateLe x z = true := by
  obtain ⟨a, b, c⟩ := x
  obtain ⟨d, e, f⟩ := y
  obtain ⟨g, i, j⟩ := z
  simp only [dateLe, Bool.or_eq_true, Bool.and_eq_true, decide_eq_true_eq] at h1 h2 ⊢
  omega

lemma dateLe_total (x y : Date) : dateLe x y = true ∨ dateLe y x = true := by
  obtain ⟨a, b, c⟩ := x
  obtain ⟨d, e, f⟩ := y
  simp only [dateLe, Bool.or_eq_true, Bool.and_eq_true, decide_eq_true_eq]
  omega

lemma dateLe_antisymm {x y : Date} (h1 : dateLe x y = true) (h2 : dateLe y x = true) :
    x = y := by
  obtain ⟨a, b, c⟩ := x
  obtain ⟨d, e, f⟩ := y
  simp only [dateLe, Bool.or_eq_true, Bool.and_eq_true, decide_eq_true_eq] at h1 h2
  simp only [Date.mk.injEq]
  omega

lemma dateLt_irrefl (m : Date) : dateLt m m = false := by
  obtain ⟨a, b, c⟩ := m
  simp only [dateLt, Bool.or_eq_false_iff, Bool.and_eq_false_iff,
    decide_eq_false_iff_not]
  omega

lemma cashLe_trans (x y z : CashRow) (h1 : cashLe x y = true) (h2 : cashLe y z = true) :
    cashLe x z = true := dateLe_trans h1 h2

lemma cashLe_total (x y : CashRow) : cashLe x y = true ∨ cashLe y x = true :=
  dateLe_total x.month y.month

/-- In a cash table with strictly increasing months, rows ordered both ways
by month are the same row. -/
lemma cash_anti_of_pairwise_lt {l : List CashRow}
    (h : l.Pairwise fun r s => dateLt r.month s.month = true) :
    ∀ x ∈ l, ∀ y ∈ l, cashLe x y = true → cashLe y x = true → x = y := by
  induction l with
  | nil => simp
  | cons a t ih =>
    rw [List.pairwise_cons] at h
    intro x hx y hy hxy hyx
    have hmeq : x.month = y.month := dateLe_antisymm hxy hyx
    rcases List.mem_cons.mp hx with hx | hx <;> rcases List.mem_cons.mp hy with hy | hy
    · rw [hx, hy]
    · exfalso
      have hlt := h.1 y hy
      rw [hx] at hmeq
      rw [← hmeq, dateLt_irrefl] at hlt
      simp at hlt
    · exfalso
      have hlt := h.1 x hx
      rw [hy] at hmeq
      rw [hmeq, dateLt_irrefl] at hlt
      simp at hlt
    · exact ih h.2 x hx y hy hxy hyx

/-- C6: with at least 4 cash rows of strictly increasing months, the burn is
(cash at the oldest of the 4 most-recent periods minus cash at the newest)
over 3, runway is balance over burn when burn is positive, and the infinite
sentinel — distinguishable from 0 — when burn is nonpositive. -/
theorem cash_runway_burn_window (cash pre : List CashRow) (a b c d : CashRow)
    (hperm : cash.Perm (pre ++ [a, b, c, d]))
    (hsorted : (pre ++ [a, b, c, d]).Pairwise fun r s => dateLt r.month s.month = true) :
    (get_cash_runway cash).cash_balance = d.cash_usd ∧
    (get_cash_runway cash).monthly_burn = (a.cash_usd - d.cash_usd) / 3 ∧
    (0 < (a.cash_usd - d.cash_usd) / 3 →
      (get_cash_runway cash).runway_months =
        Runway.fin (d.cash_usd / ((a.cash_usd - d.cash_usd) / 3))) ∧
    ((a.cash_usd - d.cash_usd) / 3 ≤ 0 →
      (get_cash_runway cash).runway_months = Runway.inf) ∧
    Runway.inf ≠ Runway.fin 0 := by
  have habcd : List.Pairwise (fun r s => dateLt r.month s.month = true) [a, b, c, d] :=
    List.Pairwise.sublist (List.sublist_append_right pre [a, b, c, d]) hsorted
  have hsp : (sortLe cashLe cash).Perm (pre ++ [a, b, c, d]) :=
    (sortLe_perm cashLe cash).trans hperm
  have hsl : sortLe cashLe cash = pre ++ [a, b, c, d] :=
    sorted_perm_unique cashLe _ _ hsp
      (pairwise_sortLe cashLe cashLe_trans cashLe_total cash)
      (hsorted.imp fun h => dateLe_of_lt h)
      fun x hx y hy hxy hyx =>
        cash_anti_of_pairwise_lt hsorted x (hsp.subset hx) y (hsp.subset hy) hxy hyx
  have htake : nlargestLe cashLe 4 cash = [d, c, b, a] := by
    rw [nlargestLe, hsl, List.reverse_append]
    rfl
  have hdesc : List.Pairwise (fun r s => cashLe r s = false) [d, c, b, a] := by
    have hrw : [d, c, b, a] = [a, b, c, d].reverse := rfl
    rw [hrw]
    exact List.pairwise_reverse.mpr (habcd.imp fun h => dateLe_eq_false_of_lt h)
  have hlat : sortLe cashLe (nlargestLe cashLe 4 cash) = [a, b, c, d] := by
    rw [htake, sortLe_of_pairwise_false _ _ hdesc]
    rfl
  simp only [get_cash_runway, hlat]
  norm_num [List.getLast]
  refine ⟨fun h1 h2 => by linarith, fun h1 h2 => by linarith, fun hc => Runway.noConfusion hc⟩

/-- Concrete cash table for the C6 witness: four months of declining cash. -/
def cashSample : List CashRow :=
  [⟨⟨2025, 1, 1⟩, 100⟩, ⟨⟨2025, 2, 1⟩, 90⟩, ⟨⟨2025, 3, 1⟩, 70⟩, ⟨⟨2025, 4, 1⟩, 40⟩]

/-- Witness for C6 on a declining four-row cash table. -/
theorem cash_runway_burn_window_witness :
    (get_cash_runway cashSample).cash_balance = 40 ∧
    (get_cash_runway cashSample).monthly_burn = (100 - 40) / 3 ∧
    (get_cash_runway cashSample).runway_months = Runway.fin (40 / ((100 - 40) / 3)) := by
  obtain ⟨h1, h2, h3, _, _⟩ := cash_runway_burn_window cashSample []
    ⟨⟨2025, 1, 1⟩, 100⟩ ⟨⟨2025, 2, 1⟩, 90⟩ ⟨⟨2025, 3, 1⟩, 70⟩ ⟨⟨2025, 4, 1⟩, 40⟩
    (List.Perm.refl _) (by decide)
  exact ⟨h1, h2, h3 (by norm_num)⟩

/-- Actuals table on which the gross-margin claim fails: the latest period
2025-03 carries two rows (Revenue and COGS) and an earlier period 2025-01
exists. -/
def actualsDup : List LedgerRow :=
  [⟨⟨2025, 3, 1⟩, "Revenue", "USD", 100⟩,
   ⟨⟨2025, 3, 1⟩, "COGS", "USD", 40⟩,
   ⟨⟨2025, 1, 1⟩, "Revenue", "USD", 10⟩]

/-- C2 (failing-input evaluation): `calculate_gross_margin` takes the n
largest month values over ROWS, so with two rows in the latest month and
`months = 2` it selects period 2025-03 twice — the per-period list repeats a
single period instead of covering the 2 most-recent distinct periods. -/
theorem gross_margin_duplicate_periods :
    calculate_gross_margin actualsDup [] 2 =
      ⟨[60, 60], ["2025-03", "2025-03"], 60⟩ ∧
    ¬ (calculate_gross_margin actualsDup [] 2).months.Nodup := by
  constructor
  · norm_num [calculate_gross_margin, actualsDup, nlargestLe, sortLe, insertLe, dateLe,
      sumUsd, convert_to_usd, fxMatches, ymStr, pad4, pad2,
      show ("COGS" == "Revenue") = false from rfl, show ("Revenue" == "Revenue") = true from rfl,
      show ("Revenue" == "COGS") = false from rfl, show ("COGS" == "COGS") = true from rfl,
      show Nat.repr 2025 ++ "-" ++ ("0" ++ Nat.repr 3) = "2025-03" from rfl]
    exact List.cons_ne_nil _ _
  · decide

/-! ### The dispatcher `process_question`

`process_question` (planner.py) wraps the classify → extract → aggregate →
chart → format sequence in a try/except. The tool and chart calls are
modelled as `Except String`-valued behaviours, so that "any internal
exception" is an arbitrary `Except.error`; the text formatting follows the
f-strings of the source, with a simplified decimal rendering of numbers. -/

/-- Rounded rendering of a rational, modelling the Python format spec `,.0f`
(thousands separators omitted by the model). -/
def fmtMoney (q : ℚ) : String := toString (q + 1/2).floor

/-- One-decimal rendering of a rational, modelling the format spec `.1f`. -/
def fmtPct (q : ℚ) : String :=
  let n : ℤ := (q * 10 + 1/2).floor
  toString (n / 10) ++ "." ++ toString (n % 10).natAbs

/-- Rendering of a runway value under `.1f`; `float('inf')` prints as "inf". -/
def fmtRunway : Runway → String
  | .fin q => fmtPct q
  | .inf => "inf"

/-- The `month_year` string: `f"{month_num}/{year}" if month_num else
f"{year}"`. -/
def monthYearStr (m : Option Nat) (y : Nat) : String :=
  if truthy m then Nat.repr (m.getD 0) ++ "/" ++ Nat.repr y else Nat.repr y

/-- The `data` field of the envelope: one variant per intent. -/
inductive DataVal
  | revenue : RevenueVsBudgetResult → DataVal
  | margin : GrossMarginResult → DataVal
  | opex : List (String × ℚ) → DataVal
  | cash : CashRunwayResult → DataVal
  | ebitda : ℚ → DataVal
deriving DecidableEq

/-- The `{intent, text, chart, data}` envelope returned for every question,
with the chart descriptor type abstract. -/
structure Envelope (χ : Type) where
  intent : String
  text : String
  chart : Option χ
  data : Option DataVal
deriving DecidableEq

/-- The tool and chart methods `process_question` calls, as fallible
behaviours: an `Except.error` models an exception raised inside the call. -/
structure ToolsBehavior (χ : Type) where
  get_revenue_vs_budget : Option Nat → Nat → Except String RevenueVsBudgetResult
  create_revenue_chart : RevenueVsBudgetResult → Except String χ
  calculate_gross_margin : Nat → Except String GrossMarginResult
  create_margin_trend_chart : GrossMarginResult → Except String χ
  get_opex_breakdown : Option Nat → Nat → Except String (List (String × ℚ))
  create_opex_breakdown_chart : List (String × ℚ) → Except String χ
  get_cash_runway : Except String CashRunwayResult
  calculate_ebitda_proxy : Except String ℚ

/-- The text of the except-branch of `process_question`, up to the appended
exception message. -/
def errIntro : String := "Sorry, I encountered an error processing your question: "

/-- The fixed help message of the unknown-intent branch. -/
def helpText : String :=
  "I\x27m not sure how to help with that question. Please ask about revenue vs budget, gross margin, opex breakdown, cash runway, or EBITDA."

/-- The body of the try-block of `CFOAgent.process_question` (planner.py):
classify, extract, dispatch on the intent, and build the envelope; any
exception in a tool or chart call propagates out as `Except.error`. -/
def attempt {χ : Type} (T : ToolsBehavior χ) (question : String) :
    Except String (Envelope χ) := do
  let intent := classify_intent question
  let me := extract_month_year question
  let month_num := me.1
  let year := me.2
  if intent == "revenue_vs_budget" then
    let data ← T.get_revenue_vs_budget month_num year
    let chart ← T.create_revenue_chart data
    pure ⟨intent,
      "Revenue " ++ monthYearStr month_num year ++ ": Actual $" ++ fmtMoney data.actual ++
        " vs Budget $" ++ fmtMoney data.budget ++ " (Variance: " ++
        fmtPct data.variance_pct ++ "%)",
      some chart, some (.revenue data)⟩
  else if intent == "gross_margin" then
    let data ← T.calculate_gross_margin 3
    let chart ← T.create_margin_trend_chart data
    pure ⟨intent,
      "Gross Margin: " ++ fmtPct data.avg_margin ++ "% average over last 3 months",
      some chart, some (.margin data)⟩
  else if intent == "opex_breakdown" then
    let data ← T.get_opex_breakdown month_num year
    let chart ← T.create_opex_breakdown_chart data
    pure ⟨intent, "Opex breakdown for " ++ monthYearStr month_num year,
      some chart, some (.opex data)⟩
  else if intent == "cash_runway" then
    let data ← T.get_cash_runway
    pure ⟨intent,
      "Cash runway: " ++ fmtRunway data.runway_months ++ " months ($" ++
        fmtMoney data.cash_balance ++ " balance, $" ++ fmtMoney data.monthly_burn ++
        "/month burn)",
      none, some (.cash data)⟩
  else if intent == "ebitda" then
    let e ← T.calculate_ebitda_proxy
    pure ⟨intent, "EBITDA proxy: $" ++ fmtMoney e, none, some (.ebitda e)⟩
  else
    pure ⟨intent, helpText, none, none⟩

/-- Embedding of `CFOAgent.process_question` (planner.py): the try-block with
the single top-level except converting any exception to an error envelope. -/
def process_question {χ : Type} (T : ToolsBehavior χ) (question : String) : Envelope χ :=
  match attempt T question with
  | .ok env => env
  | .error e => ⟨"error", errIntro ++ e, none, none⟩

lemma append_ne_empty (a b : String) (h : a ≠ "") : a ++ b ≠ "" := by
  intro hc
  apply h
  have hl := congrArg String.length hc
  rw [String.length_append] at hl
  have h0 : ("" : String).length = 0 := rfl
  have ha : a.length = 0 := by omega
  cases a with
  | mk d =>
    cases d with
    | nil => rfl
    | cons c t => simp [String.length] at ha

lemma except_bind_ok {ε α β : Type} (a : α) (f : α → Except ε β) :
    (Except.ok a >>= f) = f a := rfl

lemma except_bind_error {ε α β : Type} (e : ε) (f : α → Except ε β) :
    ((Except.error e : Except ε α) >>= f) = Except.error e := rfl

lemma attempt_ok_text {χ : Type} (T : ToolsBehavior χ) (q : String) (env : Envelope χ)
    (h : attempt T q = Except.ok env) : env.text ≠ "" := by
  simp only [attempt] at h
  split at h
  · cases hx : T.get_revenue_vs_budget (extract_month_year q).1 (extract_month_year q).2 <;>
      rw [hx] at h
    case error => simp [except_bind_error] at h
    case ok a =>
      rw [except_bind_ok] at h
      cases hc : T.create_revenue_chart a <;> rw [hc] at h
      case error => simp [except_bind_error] at h
      case ok c =>
        rw [except_bind_ok] at h
        simp only [pure, Except.pure, Except.ok.injEq] at h
        rw [← h]
        repeat' apply append_ne_empty
        decide
  · split at h
    · cases hx : T.calculate_gross_margin 3 <;> rw [hx] at h
      case error => simp [except_bind_error] at h
      case ok a =>
        rw [except_bind_ok] at h
        cases hc : T.create_margin_trend_chart a <;> rw [hc] at h
        case error => simp [except_bind_error] at h
        case ok c =>
          rw [except_bind_ok] at h
          simp only [pure, Except.pure, Except.ok.injEq] at h
          rw [← h]
          repeat' apply append_ne_empty
          decide
    · split at h
      · cases hx : T.get_opex_breakdown (extract_month_year q).1 (extract_month_year q).2 <;>
          rw [hx] at h
        case error => simp [except_bind_error] at h
        case ok a =>
          rw [except_bind_ok] at h
          cases hc : T.create_opex_breakdown_chart a <;> rw [hc] at h
          case error => simp [except_bind_error] at h
          case ok c =>
            rw [except_bind_ok] at h
            simp only [pure, Except.pure, Except.ok.injEq] at h
            rw [← h]
            repeat' apply append_ne_empty
            decide
      · split at h
        · cases hx : T.get_cash_runway <;> rw [hx] at h
          case error => simp [except_bind_error] at h
          case ok a =>
            rw [except_bind_ok] at h
            simp only [pure, Except.pure, Except.ok.injEq] at h
            rw [← h]
            repeat' apply append_ne_empty
            decide
        · split at h
          · cases hx : T.calculate_ebitda_proxy <;> rw [hx] at h
            case error => simp [except_bind_error] at h
            case ok a =>
              rw [except_bind_ok] at h
              simp only [pure, Except.pure, Except.ok.injEq] at h
              rw [← h]
              repeat' apply append_ne_empty
              decide
          · simp only [pure, Except.pure, Except.ok.injEq] at h
            rw [← h]
            show helpText ≠ ""
            decide

/-- C1: `process_question` never lets a failure escape: a failing step yields
the error-intent envelope whose text is the fixed error message followed by
the exception's message, with null chart and data; and for every question and
every tool behaviour the returned text is non-empty. -/
theorem process_question_never_raises (χ : Type) (T : ToolsBehavior χ) (q : String) :
    (process_question T q).text ≠ "" ∧
    ∀ msg, attempt T q = Except.error msg →
      process_question T q = ⟨"error", errIntro ++ msg, none, none⟩ ∧
      ∃ p, (process_question T q).text = p ++ msg := by
  constructor
  · cases h : attempt T q with
    | ok env =>
      simp only [process_question, h]
      exact attempt_ok_text T q env h
    | error e =>
      simp only [process_question, h]
      exact append_ne_empty errIntro e (by decide)
  · intro msg h
    have hp : process_question T q = ⟨"error", errIntro ++ msg, none, none⟩ := by
      simp only [process_question, h]
    exact ⟨hp, errIntro, by rw [hp]⟩

/-- Tool behaviour every call of which raises, for the C1 witness. -/
def toolsBoom : ToolsBehavior Unit where
  get_revenue_vs_budget := fun _ _ => .error "boom"
  create_revenue_chart := fun _ => .error "boom"
  calculate_gross_margin := fun _ => .error "boom"
  create_margin_trend_chart := fun _ => .error "boom"
  get_opex_breakdown := fun _ _ => .error "boom"
  create_opex_breakdown_chart := fun _ => .error "boom"
  get_cash_runway := .error "boom"
  calculate_ebitda_proxy := .error "boom"

/-- Witness for C1: a revenue question against tools that raise yields the
error envelope carrying the message. -/
theorem process_question_never_raises_witness :
    process_question toolsBoom "revenue vs budget" =
      ⟨"error", errIntro ++ "boom", none, none⟩ ∧
    ∃ p, (process_question toolsBoom "revenue vs budget").text = p ++ "boom" :=
  (process_question_never_raises Unit toolsBoom "revenue vs budget").2 "boom" rfl

end CFO
